import Mathlib

/-!
# Silk query builder

A shallow embedding of `builder.go` (package `silk`): the chainable accumulators of the
`Sql` builder, its terminal methods with their deferred `RecycleSql`, and the facts the
specification states about them.

Go values of type `interface{}` are modelled by the inductive `Value`; Go slices by `List`;
Go maps by association lists; a Go `error` by `Option String` (`none` is `nil`).  A method with
a pointer receiver that returns the receiver becomes a function `Sql → Sql`.  A terminal method
returns an `Outcome`: what the method returns, the builder as the deferred `RecycleSql` leaves
it, and the statement text and arguments it handed to the connection.

The coercion layer (`Transfer`, the `InterfaceTo...` functions, `Lcfirst`) works on a target as
`reflect` presents it: a list of fields with name, exportedness, type text and content.  Where
the bytes of a Go string matter (`Lcfirst` slices by byte index) a string is the list of its
bytes.  What the code takes from the Go library without defining it is either modelled after
the library (`strconv.ParseInt`, `strconv.Itoa`, UTF-8) or a field of `GoRuntime`.
-/

namespace Silk

/-- A 64-bit floating point number: a dyadic rational `mant * 2 ^ exp`, an infinity, or NaN. -/
inductive F64 where
  | finite (mant : Int) (exp : Int)
  | inf (neg : Bool)
  | nan
  deriving DecidableEq

/-- A dynamically typed Go value (`interface{}`) of the kinds that occur as statement
arguments, as record entries and as contents of struct fields. -/
inductive Value where
  | nil
  | bool (b : Bool)
  | int (n : Int)
  | int64 (n : Int)
  | float64 (x : F64)
  | str (s : String)
  | int32 (n : Int)
  | float32 (x : F64)
  deriving DecidableEq

/-- One row of a query result, `map[string]interface{}`. -/
abbrev Record := List (String × Value)

namespace dialect

/-- The type `dialect.Where`, as `builder.go` fills it. -/
structure Where where
  Field : String
  Operation : String
  Qmark : String
  deriving DecidableEq

/-- The type `dialect.Join`, as `builder.go` fills it. -/
structure Join where
  FieldA : String
  FieldB : String
  Table : String
  Operation : String
  deriving DecidableEq

/-- The type `dialect.RawUpdate`, as `builder.go` fills it. -/
structure RawUpdate where
  Expression : String
  Args : List Value
  deriving DecidableEq

/-- The type `dialect.H`, `map[string]interface{}`; the empty list stands for the nil map. -/
abbrev H := List (String × Value)

/-- The type `dialect.SqlComponent`, with the fields `builder.go` reads and writes. -/
structure SqlComponent where
  Fields : List String
  TableName : String
  Wheres : List Where
  Leftjoins : List Join
  Args : List Value
  Order : String
  Offset : String
  Limit : String
  WhereRaws : String
  UpdateRaws : List RawUpdate
  Values : H
  Statement : String
  deriving DecidableEq

end dialect

/-- The dialect held by a connection.  The four compile methods receive `&sql.SqlComponent`
and return nothing, so each is a function from the component to the component it leaves. -/
structure Dialect where
  Select : dialect.SqlComponent → dialect.SqlComponent
  Insert : dialect.SqlComponent → dialect.SqlComponent
  Update : dialect.SqlComponent → dialect.SqlComponent
  Delete : dialect.SqlComponent → dialect.SqlComponent
  ShowColumns : String → String
  ShowTables : String

/-- The value `sql.Result` returned by `Exec`: its two methods, each returning `(int64, error)`. -/
structure ExecResult where
  RowsAffected : Int × Option String
  LastInsertId : Int × Option String

/-- The connection `*DB`: its dialect and the two capabilities the builder consumes. -/
structure DB where
  dialect : Dialect
  Query : String → List Value → List Record
  Exec : String → List Value → ExecResult

/-- The builder `Sql`: an embedded `dialect.SqlComponent` and a connection. -/
structure Sql extends dialect.SqlComponent where
  connection : DB

/-- The constructor `SqlPool.New`, for the connection `DBInstance.clone()`. -/
def SqlPoolNew (conn : DB) : Sql :=
  { Fields := [], TableName := "", Args := [], Wheres := [], Leftjoins := [],
    UpdateRaws := [], WhereRaws := "", Order := "", Offset := "", Limit := "",
    Values := [], Statement := "", connection := conn }

/-- The function `strings.Repeat`, for a non-negative count. -/
def Repeat (s : String) : Nat → String
  | 0 => ""
  | n + 1 => s ++ Repeat s n

/-- The function `strconv.Itoa`: the base-10 rendering of an integer. -/
def Itoa (n : Int) : String :=
  match n with
  | Int.ofNat m => Nat.repr m
  | Int.negSucc m => "-" ++ Nat.repr (m + 1)

namespace Sql

/-- Method `Table`. -/
def Table (sql : Sql) (table : String) : Sql :=
  { sql with TableName := table }

/-- Method `Select`. -/
def Select (sql : Sql) (fields : List String) : Sql :=
  { sql with Fields := fields }

/-- Method `OrderBy`. -/
def OrderBy (sql : Sql) (filed : String) (order : String) : Sql :=
  { sql with Order := "`" ++ filed ++ "` " ++ order }

/-- Method `Skip`. -/
def Skip (sql : Sql) (offset : Int) : Sql :=
  { sql with Offset := Itoa offset }

/-- Method `Take`. -/
def Take (sql : Sql) (take : Int) : Sql :=
  { sql with Limit := Itoa take }

/-- Method `Where`. -/
def Where (sql : Sql) (field : String) (operation : String) (arg : Value) : Sql :=
  { sql with
    Wheres := sql.Wheres ++ [{ Field := field, Operation := operation, Qmark := "?" }]
    Args := sql.Args ++ [arg] }

/-- Method `WhereIn`. -/
def WhereIn (sql : Sql) (field : String) (arg : List Value) : Sql :=
  if arg.length = 0 then sql
  else
    { sql with
      Wheres := sql.Wheres ++
        [{ Field := field, Operation := "in",
           Qmark := "(" ++ Repeat "?," (arg.length - 1) ++ "?)" }]
      Args := sql.Args ++ arg }

/-- Method `WhereNotIn`. -/
def WhereNotIn (sql : Sql) (field : String) (arg : List Value) : Sql :=
  if arg.length = 0 then sql
  else
    { sql with
      Wheres := sql.Wheres ++
        [{ Field := field, Operation := "not in",
           Qmark := "(" ++ Repeat "?," (arg.length - 1) ++ "?)" }]
      Args := sql.Args ++ arg }

/-- Method `WhereRaw`. -/
def WhereRaw (sql : Sql) (raw : String) (args : List Value) : Sql :=
  { sql with WhereRaws := raw, Args := sql.Args ++ args }

/-- Method `UpdateRaw`. -/
def UpdateRaw (sql : Sql) (raw : String) (args : List Value) : Sql :=
  { sql with UpdateRaws := sql.UpdateRaws ++ [{ Expression := raw, Args := args }] }

/-- Method `LeftJoin`. -/
def LeftJoin (sql : Sql) (table fieldA operation fieldB : String) : Sql :=
  { sql with
    Leftjoins := sql.Leftjoins ++
      [{ FieldA := fieldA, FieldB := fieldB, Table := table, Operation := operation }] }

end Sql

/-- Function `Table`, where `got` is the builder `SqlPool.Get` returns and `db` is the
connection `DBInstance.clone()`. -/
def Table (got : Sql) (db : DB) (table : String) : Sql :=
  { got with TableName := table, connection := db }

/-- Function `RecycleSql`: the builder as the reset leaves it.  `SqlPool.Put` then hands this
same object to the pool. -/
def RecycleSql (sql : Sql) : Sql :=
  { sql with
    Fields := [], TableName := "", Wheres := [], Leftjoins := [], Args := [],
    Order := "", Offset := "", Limit := "", WhereRaws := "", UpdateRaws := [],
    Statement := "" }

/-- What a terminal method does: the values it returns, the builder after the deferred
`RecycleSql`, and the statement text and arguments it passed to `Query` or `Exec`. -/
structure Outcome (α : Type) where
  ret : α
  sql : Sql
  stmt : String
  args : List Value

/-- The builder after a dialect compile method ran on `&sql.SqlComponent`. -/
def compiled (sql : Sql) (f : dialect.SqlComponent → dialect.SqlComponent) : Sql :=
  { sql with toSqlComponent := f sql.toSqlComponent }

namespace Sql

/-- Method `First`. -/
def First (sql : Sql) : Outcome (Option Record × Option String) :=
  let sql1 := compiled sql sql.connection.dialect.Select
  let res := sql1.connection.Query sql1.Statement sql1.Args
  { ret := if res.length < 1 then (none, some "out of index") else (res[0]?, none)
    sql := RecycleSql sql1, stmt := sql1.Statement, args := sql1.Args }

/-- Method `All`. -/
def All (sql : Sql) : Outcome (List Record × Option String) :=
  let sql1 := compiled sql sql.connection.dialect.Select
  let res := sql1.connection.Query sql1.Statement sql1.Args
  { ret := (res, none), sql := RecycleSql sql1, stmt := sql1.Statement, args := sql1.Args }

/-- Method `ShowColumns`. -/
def ShowColumns (sql : Sql) : Outcome (List Record × Option String) :=
  let text := sql.connection.dialect.ShowColumns sql.TableName
  let res := sql.connection.Query text []
  { ret := (res, none), sql := RecycleSql sql, stmt := text, args := [] }

/-- Method `ShowTables`. -/
def ShowTables (sql : Sql) : Outcome (List Record × Option String) :=
  let text := sql.connection.dialect.ShowTables
  let res := sql.connection.Query text []
  { ret := (res, none), sql := RecycleSql sql, stmt := text, args := [] }

/-- Method `Update`. -/
def Update (sql : Sql) (values : dialect.H) : Outcome (Int × Option String) :=
  let sql0 : Sql := { sql with Values := values }
  let sql1 := compiled sql0 sql0.connection.dialect.Update
  let res := sql1.connection.Exec sql1.Statement sql1.Args
  { ret := if res.RowsAffected.1 < 1 then (0, some "no affect row") else res.LastInsertId
    sql := RecycleSql sql1, stmt := sql1.Statement, args := sql1.Args }

/-- Method `Delete`. -/
def Delete (sql : Sql) : Outcome (Option String) :=
  let sql1 := compiled sql sql.connection.dialect.Delete
  let res := sql1.connection.Exec sql1.Statement sql1.Args
  { ret := if res.RowsAffected.1 < 1 then some "no affect row" else none
    sql := RecycleSql sql1, stmt := sql1.Statement, args := sql1.Args }

/-- Method `Exec`. -/
def Exec (sql : Sql) : Outcome (Int × Option String) :=
  let sql1 := compiled sql sql.connection.dialect.Update
  let res := sql1.connection.Exec sql1.Statement sql1.Args
  { ret := if res.RowsAffected.1 < 1 then (0, some "no affect row") else res.LastInsertId
    sql := RecycleSql sql1, stmt := sql1.Statement, args := sql1.Args }

/-- Method `Insert`. -/
def Insert (sql : Sql) (values : dialect.H) : Outcome (Int × Option String) :=
  let sql0 : Sql := { sql with Values := values }
  let sql1 := compiled sql0 sql0.connection.dialect.Insert
  let res := sql1.connection.Exec sql1.Statement sql1.Args
  { ret := if res.RowsAffected.1 < 1 then (0, some "no affect row") else res.LastInsertId
    sql := RecycleSql sql1, stmt := sql1.Statement, args := sql1.Args }

end Sql

/-! ## Library functions the coercion layer calls -/

/-- What `builder.go` takes from the Go library and the platform without defining it: the
lower-case mapping of `unicode.ToLower` above ASCII, `strconv.ParseFloat(s, 64)` (`none` when
it reports an error), the conversion `float32(x)`, and the result of `int64(x)` for a float
that no `int64` represents. -/
structure GoRuntime where
  lowerTable : Nat → Nat
  ParseFloat : String → Option F64
  toFloat32 : F64 → F64
  int64OutOfRange : F64 → Int

/-- The UTF-8 encoding of a code point below `0x110000`. -/
def utf8Encode (r : Nat) : List Nat :=
  if r < 0x80 then [r]
  else if r < 0x800 then [0xC0 + r / 64, 0x80 + r % 64]
  else if r < 0x10000 then [0xE0 + r / 4096, 0x80 + r / 64 % 64, 0x80 + r % 64]
  else [0xF0 + r / 262144, 0x80 + r / 4096 % 64, 0x80 + r / 64 % 64, 0x80 + r % 64]

/-- The bytes of a Go string holding the given text. -/
def goBytes (s : String) : List Nat :=
  s.data.flatMap (fun c => utf8Encode c.toNat)

/-- The conversion `string(r)` of a rune: its UTF-8 encoding, and that of `U+FFFD` for a
surrogate or a value above `U+10FFFF`. -/
def runeString (r : Nat) : List Nat :=
  if (0xD800 ≤ r ∧ r ≤ 0xDFFF) ∨ 0x10FFFF < r then utf8Encode 0xFFFD else utf8Encode r

/-- Whether a byte is a UTF-8 continuation byte within the given bounds. -/
def inRange (lo hi b : Nat) : Bool :=
  decide (lo ≤ b ∧ b ≤ hi)

/-- The first rune a `range` loop over a non-empty Go string yields, with its width in bytes:
the decoded code point, or `U+FFFD` with width 1 where the bytes are not valid UTF-8. -/
def decodeRune : List Nat → Nat × Nat
  | [] => (0xFFFD, 1)
  | b0 :: rest =>
    if b0 < 0x80 then (b0, 1)
    else if inRange 0xC2 0xDF b0 then
      match rest with
      | b1 :: _ =>
        if inRange 0x80 0xBF b1 then ((b0 % 32) * 64 + b1 % 64, 2) else (0xFFFD, 1)
      | _ => (0xFFFD, 1)
    else if inRange 0xE0 0xEF b0 then
      match rest with
      | b1 :: b2 :: _ =>
        if inRange (if b0 = 0xE0 then 0xA0 else 0x80) (if b0 = 0xED then 0x9F else 0xBF) b1
            && inRange 0x80 0xBF b2 then
          ((b0 % 16) * 4096 + (b1 % 64) * 64 + b2 % 64, 3)
        else (0xFFFD, 1)
      | _ => (0xFFFD, 1)
    else if inRange 0xF0 0xF4 b0 then
      match rest with
      | b1 :: b2 :: b3 :: _ =>
        if inRange (if b0 = 0xF0 then 0x90 else 0x80) (if b0 = 0xF4 then 0x8F else 0xBF) b1
            && inRange 0x80 0xBF b2 && inRange 0x80 0xBF b3 then
          ((b0 % 8) * 262144 + (b1 % 64) * 4096 + (b2 % 64) * 64 + b3 % 64, 4)
        else (0xFFFD, 1)
      | _ => (0xFFFD, 1)
    else (0xFFFD, 1)

/-- The function `unicode.ToLower`: the ASCII rule of the library, and the case table of the
runtime above ASCII. -/
def ToLower (rt : GoRuntime) (r : Nat) : Nat :=
  if r ≤ 0x7F then
    if 0x41 ≤ r ∧ r ≤ 0x5A then r + 0x20 else r
  else rt.lowerTable r

/-- The digit loop of `strconv.ParseUint(s, 10, 64)` from the accumulator `n`, with its
unsigned 64-bit arithmetic; `none` stands for a syntax error or a range error.  A byte that is
no decimal digit is a syntax error: a letter has a digit value of at least 10, and any other
byte, those of a non-ASCII character included, is no digit at all. -/
def parseUintLoop (n : Nat) : List Char → Option Nat
  | [] => some n
  | c :: cs =>
    if '0' ≤ c ∧ c ≤ '9' then
      if n ≥ 18446744073709551615 / 10 + 1 then none
      else
        let n0 := (n * 10) % 2 ^ 64
        let n1 := (n0 + (c.toNat - '0'.toNat)) % 2 ^ 64
        if n1 < n0 ∨ n1 > 18446744073709551615 then none
        else parseUintLoop n1 cs
    else none

/-- The function `strconv.ParseUint(s, 10, 64)`; `none` when it reports an error. -/
def ParseUint (s : List Char) : Option Nat :=
  if s = [] then none else parseUintLoop 0 s

/-- The function `strconv.ParseInt(s, 10, 64)`; `none` when it reports an error. -/
def ParseInt (s : String) : Option Int :=
  match s.data with
  | [] => none
  | c :: cs =>
    let neg := decide (c = '-')
    let body := if c = '+' ∨ c = '-' then cs else c :: cs
    match ParseUint body with
    | none => none
    | some un =>
      if !neg && decide (un ≥ 2 ^ 63) then none
      else if neg && decide (un > 2 ^ 63) then none
      else some (if neg then -(un : Int) else (un : Int))

/-- The conversion `int64(x)` of a `float64`: the fraction is discarded; a value no `int64`
represents gives what the platform gives. -/
def F64.toInt64 (rt : GoRuntime) (x : F64) : Int :=
  match x with
  | F64.finite mant exp =>
    let t := if 0 ≤ exp then mant * 2 ^ exp.toNat else mant.tdiv (2 ^ (-exp).toNat)
    if -(2 ^ 63) ≤ t ∧ t < 2 ^ 63 then t else rt.int64OutOfRange x
  | _ => rt.int64OutOfRange x

/-! ## Result coercion -/

/-- Function `InterfaceToInt64`. -/
def InterfaceToInt64 (rt : GoRuntime) (value : Value) : Int :=
  match value with
  | Value.int64 val => val
  | Value.float64 val => val.toInt64 rt
  | Value.str val =>
    match ParseInt val with
    | some valInt => valInt
    | none => 0
  | _ => 0

/-- Function `InterfaceToFloat64`. -/
def InterfaceToFloat64 (rt : GoRuntime) (value : Value) : F64 :=
  match value with
  | Value.float64 val => val
  | Value.str val =>
    match rt.ParseFloat val with
    | some valFloat64 => valFloat64
    | none => F64.finite 0 0
  | _ => F64.finite 0 0

/-- Function `InterfaceToString`. -/
def InterfaceToString (value : Value) : String :=
  match value with
  | Value.str val => val
  | _ => ""

/-- Function `InterfaceToBool`. -/
def InterfaceToBool (value : Value) : Bool :=
  match value with
  | Value.bool val => val
  | Value.str val => if val = "true" then true else false
  | Value.int64 val => if val > 0 then true else false
  | _ => false

/-- Function `Lcfirst`, on the bytes of the string: the first iteration of the `range` loop
has index 0 and the first rune, and returns the lower-cased rune followed by `str[1:]`. -/
def Lcfirst (rt : GoRuntime) (str : List Nat) : List Nat :=
  match str with
  | [] => []
  | _ :: _ => runeString (ToLower rt (decodeRune str).1) ++ str.drop (0 + 1)

/-- A field of the target struct as `reflect` presents it: its name, whether
`CanInterface()` holds (the field is exported), the text `Type().String()` gives, and the
value it holds. -/
structure StructField where
  Name : String
  CanInterface : Bool
  typ : String
  val : Value
  deriving DecidableEq

/-- What a target points to, or is: a struct with its fields in order, or a value that is no
struct. -/
inductive Pointee where
  | struct (fields : List StructField)
  | other (v : Value)
  deriving DecidableEq

/-- The argument `targetStruct`: a value that is no pointer (the nil interface included), a
nil pointer, or a pointer to a value. -/
inductive Target where
  | direct (x : Pointee)
  | nilPointer
  | pointer (x : Pointee)
  deriving DecidableEq

/-- How a call ends: it returns an error value (`none` is `nil`), or it panics. -/
inductive Exit where
  | returned (err : Option String)
  | panicked
  deriving DecidableEq

/-- The value a signed integer field of the given width holds after being assigned `x`:
`x` reduced to that width in two's complement. -/
def wrapInt (bits : Nat) (x : Int) : Int :=
  (x + 2 ^ (bits - 1)) % 2 ^ bits - 2 ^ (bits - 1)

/-- The map index expression `sourceMap[key]` for a key given by its bytes. -/
def mapIndex (sourceMap : Record) (key : List Nat) : Option Value :=
  (sourceMap.find? (fun kv => goBytes kv.1 = key)).map (fun kv => kv.2)

/-- The `switch` of `Transfer` on the type of a field, for a source value that was found.
`SetInt` and `SetFloat` convert to the type of the field: `int` and `int64` (both 64 bits
wide) hold the `int64` as it is, `int32` holds it reduced to 32 bits, `float32` holds the
`float32` conversion. -/
def setField (rt : GoRuntime) (f : StructField) (value : Value) : StructField :=
  if f.typ = "string" then { f with val := Value.str (InterfaceToString value) }
  else if f.typ = "bool" then { f with val := Value.bool (InterfaceToBool value) }
  else if f.typ = "int" then { f with val := Value.int (InterfaceToInt64 rt value) }
  else if f.typ = "int64" then { f with val := Value.int64 (InterfaceToInt64 rt value) }
  else if f.typ = "int32" then
    { f with val := Value.int32 (wrapInt 32 (InterfaceToInt64 rt value)) }
  else if f.typ = "float32" then
    { f with val := Value.float32 (rt.toFloat32 (InterfaceToFloat64 rt value)) }
  else if f.typ = "float64" then { f with val := Value.float64 (InterfaceToFloat64 rt value) }
  else f

/-- The loop of `Transfer` over the fields from index `i` on: the error it returns and the
fields as it leaves them. -/
def transferFields (rt : GoRuntime) (sourceMap : Record) :
    List StructField → Option String × List StructField
  | [] => (none, [])
  | f :: rest =>
    if f.CanInterface then
      match mapIndex sourceMap (goBytes f.Name) with
      | none =>
        let f1 :=
          match mapIndex sourceMap (Lcfirst rt (goBytes f.Name)) with
          | some value => setField rt f value
          | none => f
        ((transferFields rt sourceMap rest).1, f1 :: (transferFields rt sourceMap rest).2)
      | some _ => (some "wrong map key", f :: rest)
    else (some "wrong struct field", f :: rest)

/-- Function `Transfer`: how the call ends and the target as it leaves it.  For a pointer to
a value that is no struct, `v.NumField()` panics. -/
def Transfer (rt : GoRuntime) (sourceMap : Record) (targetStruct : Target) : Exit × Target :=
  match targetStruct with
  | Target.direct x => (Exit.returned (some "wrong type"), Target.direct x)
  | Target.nilPointer => (Exit.returned (some "wrong type"), Target.nilPointer)
  | Target.pointer (Pointee.other v) => (Exit.panicked, Target.pointer (Pointee.other v))
  | Target.pointer (Pointee.struct fields) =>
    (Exit.returned (transferFields rt sourceMap fields).1,
      Target.pointer (Pointee.struct (transferFields rt sourceMap fields).2))

/-- Method `FormFirst`: how the call ends and the target as it leaves it, with the builder
and the query of the `First` it runs. -/
def Sql.FormFirst (rt : GoRuntime) (sql : Sql) (v : Target) : Outcome (Exit × Target) :=
  let first := sql.First
  { ret :=
      match first.ret.2 with
      | some err => (Exit.returned (some err), v)
      | none =>
        match Transfer rt (first.ret.1.getD []) v with
        | (Exit.panicked, v1) => (Exit.panicked, v1)
        | (Exit.returned _, v1) => (Exit.returned none, v1)
    sql := first.sql, stmt := first.stmt, args := first.args }

/-! ## Notions the specification uses -/

/-- The number of `?` placeholder markers in a placeholder shape. -/
def qmarkCount (s : String) : Nat :=
  s.data.count '?'

/-- The placeholder shape in the words of the specification: an opening parenthesis, `n`
markers `?` separated by commas, a closing parenthesis. -/
def placeholderShape (n : Nat) : String :=
  "(" ++ String.intercalate "," (List.replicate n "?") ++ ")"

/-- One call of a filter method, with its arguments. -/
inductive Call where
  | Where (field : String) (operation : String) (arg : Value)
  | WhereIn (field : String) (arg : List Value)
  | WhereNotIn (field : String) (arg : List Value)

/-- The values a filter call is given. -/
def callValues : Call → List Value
  | Call.Where _ _ arg => [arg]
  | Call.WhereIn _ arg => arg
  | Call.WhereNotIn _ arg => arg

/-- The builder after one filter call. -/
def applyCall (sql : Sql) : Call → Sql
  | Call.Where field operation arg => sql.Where field operation arg
  | Call.WhereIn field arg => sql.WhereIn field arg
  | Call.WhereNotIn field arg => sql.WhereNotIn field arg

/-- The builder after a sequence of filter calls, in call order. -/
def applyCalls (sql : Sql) (calls : List Call) : Sql :=
  calls.foldl applyCall sql

/-- The marker counts of the filters of a builder, in filter order. -/
def markerCounts (sql : Sql) : List Nat :=
  sql.Wheres.map (fun w => qmarkCount w.Qmark)

/-- The state the specification requires of a builder after a terminal operation. -/
def Cleared (s : Sql) : Prop :=
  s.Fields = [] ∧ s.Wheres = [] ∧ s.Leftjoins = [] ∧ s.Args = [] ∧ s.TableName = "" ∧
  s.Order = "" ∧ s.Offset = "" ∧ s.Limit = "" ∧ s.WhereRaws = "" ∧ s.UpdateRaws = [] ∧
  s.Statement = ""

/-- The rows `Query` returns for the select statement `First` and `All` compile. -/
def selectRows (sql : Sql) : List Record :=
  sql.connection.Query (sql.connection.dialect.Select sql.toSqlComponent).Statement
    (sql.connection.dialect.Select sql.toSqlComponent).Args

/-- Modelled from the spec: package `dialect` is not among the sources.  The WHERE clause of
section 4.2: the raw filter fragment if present, then each structured filter rendered as
field, operation, placeholder shape, conjoined in order. -/
def whereText (c : dialect.SqlComponent) : String :=
  let conds := (if c.WhereRaws = "" then [] else [c.WhereRaws]) ++
    c.Wheres.map (fun w => w.Field ++ " " ++ w.Operation ++ " " ++ w.Qmark)
  if conds.isEmpty then "" else " where " ++ String.intercalate " and " conds

/-- Modelled from the spec: package `dialect` is not among the sources.  One dialect compiler
as section 4.2 describes it: each compile method produces statement text from the component and
changes nothing else, the arguments included. -/
def textDialect : Dialect where
  Select := fun c =>
    { c with Statement :=
        "select " ++ (if c.Fields.isEmpty then "*" else String.intercalate ", " c.Fields) ++
        " from " ++ c.TableName ++
        String.join (c.Leftjoins.map (fun j =>
          " left join " ++ j.Table ++ " on " ++ j.FieldA ++ " " ++ j.Operation ++ " " ++
            j.FieldB)) ++
        whereText c ++
        (if c.Order = "" then "" else " order by " ++ c.Order) ++
        (if c.Limit = "" then "" else " limit " ++ c.Limit) ++
        (if c.Offset = "" then "" else " offset " ++ c.Offset) }
  Insert := fun c =>
    { c with Statement :=
        "insert into " ++ c.TableName ++ " (" ++
        String.intercalate ", " (c.Values.map (fun kv => kv.1)) ++ ") values (" ++
        String.intercalate ", " (c.Values.map (fun _ => "?")) ++ ")" }
  Update := fun c =>
    { c with Statement :=
        "update " ++ c.TableName ++ " set " ++
        String.intercalate ", " (c.UpdateRaws.map (fun r => r.Expression) ++
          c.Values.map (fun kv => kv.1 ++ " = ?")) ++
        whereText c }
  Delete := fun c =>
    { c with Statement := "delete from " ++ c.TableName ++ whereText c }
  ShowColumns := fun table => "show columns in " ++ table
  ShowTables := "show tables"

/-- A connection with the dialect `textDialect`, whose `Query` returns no row and whose `Exec`
reports one affected row and the identifier 7. -/
def textDB : DB where
  dialect := textDialect
  Query := fun _ _ => []
  Exec := fun _ _ => { RowsAffected := (1, none), LastInsertId := (7, none) }

/-- Modelled from the spec: package `dialect` is not among the sources.  A connection like
`textDB` whose dialect, in its `Update` method, also puts the update values, in the order of
`Values`, in front of the args (the order `update ... => where ...` of the comment above the
terminal methods). -/
def prependingDB : DB where
  dialect :=
    { textDialect with
      Update := fun c =>
        { textDialect.Update c with Args := c.Values.map Prod.snd ++ c.Args } }
  Query := fun _ _ => []
  Exec := fun _ _ => { RowsAffected := (1, none), LastInsertId := (7, none) }

/-- A connection with the dialect `textDialect` whose `Query` returns the given rows and whose
`Exec` reports the given affected-row count and identifier. -/
def fixedDB (rows : List Record) (affected lastId : Int) : DB where
  dialect := textDialect
  Query := fun _ _ => rows
  Exec := fun _ _ => { RowsAffected := (affected, none), LastInsertId := (lastId, none) }

/-- The result `Exec` returns for the statement a write method compiles with the dialect
method `f`. -/
def execResult (sql : Sql) (f : dialect.SqlComponent → dialect.SqlComponent) : ExecResult :=
  sql.connection.Exec (f sql.toSqlComponent).Statement (f sql.toSqlComponent).Args

/-- A runtime for evaluating examples: the lower-case mapping of the Latin-1 capital letters
`U+00C0` to `U+00DE` (without the multiplication sign) and the identity elsewhere above ASCII,
a `ParseFloat` that rejects every string, the identity for `float32`, and the smallest `int64`
for a float out of range.  No example depends on the last three. -/
def exampleRuntime : GoRuntime where
  lowerTable := fun r => if 0xC0 ≤ r ∧ r ≤ 0xDE ∧ r ≠ 0xD7 then r + 0x20 else r
  ParseFloat := fun _ => none
  toFloat32 := fun x => x
  int64OutOfRange := fun _ => -(2 ^ 63)

/-- The digits of a literal without its sign. -/
def literalBody (s : String) : List Char :=
  match s.data with
  | [] => []
  | c :: cs => if c = '+' ∨ c = '-' then cs else c :: cs

/-- The number a run of decimal digits denotes. -/
def digitsValue (cs : List Char) : Nat :=
  cs.foldl (fun a c => 10 * a + (c.toNat - '0'.toNat)) 0

/-- The integer a signed decimal literal denotes. -/
def literalValue (s : String) : Int :=
  if s.data.head? = some '-' then -(digitsValue (literalBody s) : Int)
  else (digitsValue (literalBody s) : Int)

/-- A valid base-10 signed 64-bit integer literal, in the words of the specification: an
optional sign, then decimal digits (at least one), denoting a value within the `int64`
range. -/
def isInt64Literal (s : String) : Prop :=
  literalBody s ≠ [] ∧ (∀ c ∈ literalBody s, '0' ≤ c ∧ c ≤ '9') ∧
  -(2 ^ 63 : Int) ≤ literalValue s ∧ literalValue s < 2 ^ 63

instance (s : String) : Decidable (isInt64Literal s) := by
  unfold isInt64Literal; infer_instance

/-- What a write method returns, against the result `r` of `Exec`: the error `no affect row`
with 0 when fewer than one row was affected, and otherwise what `LastInsertId` gives; so, when
`LastInsertId` reports no error itself, the method fails exactly when fewer than one row was
affected. -/
def WriteContract (ret : Int × Option String) (r : ExecResult) : Prop :=
  (r.RowsAffected.1 < 1 → ret = (0, some "no affect row")) ∧
  (1 ≤ r.RowsAffected.1 → ret = r.LastInsertId) ∧
  (r.LastInsertId.2 = none → (ret.2 = some "no affect row" ↔ r.RowsAffected.1 < 1)) ∧
  (r.LastInsertId.2 = none → (ret.2 ≠ none ↔ r.RowsAffected.1 < 1))

/-- The value a field of the given type holds once a source value was found for it, `old`
being what it held: the coercion that belongs to the type, narrowed to the width of the field
for `int32` and `float32`, and `old` for any other type. -/
def coercedValue (rt : GoRuntime) (typ : String) (value old : Value) : Value :=
  if typ = "string" then Value.str (InterfaceToString value)
  else if typ = "bool" then Value.bool (InterfaceToBool value)
  else if typ = "int" then Value.int (InterfaceToInt64 rt value)
  else if typ = "int64" then Value.int64 (InterfaceToInt64 rt value)
  else if typ = "int32" then Value.int32 (wrapInt 32 (InterfaceToInt64 rt value))
  else if typ = "float32" then Value.float32 (rt.toFloat32 (InterfaceToFloat64 rt value))
  else if typ = "float64" then Value.float64 (InterfaceToFloat64 rt value)
  else old

/-- The field after coercion from the record: looked up under the key `Lcfirst` gives for its
name; unchanged when the record has no such key. -/
def coerceField (rt : GoRuntime) (m : Record) (f : StructField) : StructField :=
  match mapIndex m (Lcfirst rt (goBytes f.Name)) with
  | some value => { f with val := coercedValue rt f.typ value f.val }
  | none => f

/-- The part of the clause model an accumulator must leave alone: args, filters, joins, the
raw filter fragment and the raw update fragments. -/
def SameClauses (a b : Sql) : Prop :=
  a.Args = b.Args ∧ a.Wheres = b.Wheres ∧ a.Leftjoins = b.Leftjoins ∧
  a.WhereRaws = b.WhereRaws ∧ a.UpdateRaws = b.UpdateRaws

/-- The integer `t` is `mant / 2 ^ k` with the fraction discarded (rounded toward zero). -/
def IsTruncation (mant : Int) (k : Nat) (t : Int) : Prop :=
  (0 ≤ mant → 0 ≤ t ∧ t * 2 ^ k ≤ mant ∧ mant < (t + 1) * 2 ^ k) ∧
  (mant < 0 → t ≤ 0 ∧ (t - 1) * 2 ^ k < mant ∧ mant ≤ t * 2 ^ k)

/-! ## Lemmas on placeholder shapes -/

theorem qmarkCount_append (a b : String) :
    qmarkCount (a ++ b) = qmarkCount a + qmarkCount b := by
  simp [qmarkCount, String.data_append, List.count_append]

theorem qmarkCount_Repeat (k : Nat) : qmarkCount (Repeat "?," k) = k := by
  induction k with
  | zero => decide
  | succ n ih =>
    have h1 : qmarkCount "?," = 1 := by decide
    rw [Repeat, qmarkCount_append, ih, h1]
    omega

theorem qmarkCount_source_shape (k : Nat) :
    qmarkCount ("(" ++ Repeat "?," k ++ "?)") = k + 1 := by
  have h1 : qmarkCount "(" = 0 := by decide
  have h2 : qmarkCount "?)" = 1 := by decide
  rw [qmarkCount_append, qmarkCount_append, qmarkCount_Repeat, h1, h2]
  omega

theorem intercalate_go_replicate (acc : String) (k : Nat) :
    String.intercalate.go acc "," (List.replicate k "?") = acc ++ Repeat ",?" k := by
  induction k generalizing acc with
  | zero => simp [String.intercalate.go, Repeat]
  | succ n ih =>
    rw [List.replicate_succ, String.intercalate.go, ih, Repeat]
    simp [String.append_assoc]

theorem Repeat_shift (k : Nat) : Repeat "?," k ++ "?" = "?" ++ Repeat ",?" k := by
  induction k with
  | zero => rfl
  | succ n ih =>
    rw [Repeat, Repeat, String.append_assoc, ih]
    simp [← String.append_assoc]

theorem placeholderShape_succ (k : Nat) :
    placeholderShape (k + 1) = "(" ++ Repeat "?," k ++ "?)" := by
  have h : ("?)" : String) = "?" ++ ")" := rfl
  rw [placeholderShape, List.replicate_succ, String.intercalate, intercalate_go_replicate,
    ← Repeat_shift, h]
  simp [String.append_assoc]

theorem source_shape_eq (n : Nat) (h : n ≠ 0) :
    "(" ++ Repeat "?," (n - 1) ++ "?)" = placeholderShape n := by
  obtain ⟨k, rfl⟩ := Nat.exists_eq_succ_of_ne_zero h
  rw [placeholderShape_succ, Nat.succ_sub_one]

theorem qmarkCount_placeholderShape (n : Nat) (h : n ≠ 0) :
    qmarkCount (placeholderShape n) = n := by
  obtain ⟨k, rfl⟩ := Nat.exists_eq_succ_of_ne_zero h
  rw [placeholderShape_succ, qmarkCount_source_shape]

/-! ## Lemmas on sequences of filter calls -/

theorem applyCall_Args (s : Sql) (c : Call) :
    (applyCall s c).Args = s.Args ++ callValues c := by
  cases c with
  | Where f op v => rfl
  | WhereIn f vs =>
    cases vs with
    | nil => simp [applyCall, Sql.WhereIn, callValues]
    | cons v t => simp [applyCall, Sql.WhereIn, callValues]
  | WhereNotIn f vs =>
    cases vs with
    | nil => simp [applyCall, Sql.WhereNotIn, callValues]
    | cons v t => simp [applyCall, Sql.WhereNotIn, callValues]

theorem applyCall_markerCounts (s : Sql) (c : Call) :
    markerCounts (applyCall s c) =
      markerCounts s ++ ([callValues c].filter (fun vs => vs ≠ [])).map List.length := by
  cases c with
  | Where f op v =>
    have h1 : qmarkCount "?" = 1 := by decide
    simp [applyCall, Sql.Where, callValues, markerCounts, h1]
  | WhereIn f vs =>
    cases vs with
    | nil => simp [applyCall, Sql.WhereIn, callValues, markerCounts]
    | cons v t =>
      simp [applyCall, Sql.WhereIn, callValues, markerCounts, qmarkCount_source_shape]
  | WhereNotIn f vs =>
    cases vs with
    | nil => simp [applyCall, Sql.WhereNotIn, callValues, markerCounts]
    | cons v t =>
      simp [applyCall, Sql.WhereNotIn, callValues, markerCounts, qmarkCount_source_shape]

theorem applyCalls_Args (s : Sql) (calls : List Call) :
    (applyCalls s calls).Args = s.Args ++ calls.flatMap callValues := by
  induction calls generalizing s with
  | nil => simp [applyCalls]
  | cons c t ih =>
    have h := ih (applyCall s c)
    simp only [applyCalls, List.foldl_cons] at h ⊢
    rw [h, applyCall_Args, List.flatMap_cons, List.append_assoc]

theorem applyCalls_markerCounts (s : Sql) (calls : List Call) :
    markerCounts (applyCalls s calls) =
      markerCounts s ++
        ((calls.map callValues).filter (fun vs => vs ≠ [])).map List.length := by
  induction calls generalizing s with
  | nil => simp [applyCalls]
  | cons c t ih =>
    have h := ih (applyCall s c)
    simp only [applyCalls, List.foldl_cons] at h ⊢
    rw [h, applyCall_markerCounts, List.append_assoc, ← List.map_append, ← List.filter_append]
    rfl

theorem sum_lengths_filter (l : List (List Value)) :
    ((l.filter (fun vs => vs ≠ [])).map List.length).sum = l.flatten.length := by
  induction l with
  | nil => rfl
  | cons a t ih =>
    cases a with
    | nil => simpa using ih
    | cons v r =>
      have h : List.filter (fun vs => decide (vs ≠ [])) ((v :: r) :: t) =
          (v :: r) :: List.filter (fun vs => decide (vs ≠ [])) t := by
        simp [List.filter_cons]
      rw [h, List.map_cons, List.sum_cons, ih, List.flatten_cons, List.length_append]

theorem applyCalls_aligned (s : Sql) (calls : List Call) (hw : s.Wheres = [])
    (ha : s.Args = []) :
    (markerCounts (applyCalls s calls)).sum = (applyCalls s calls).Args.length ∧
    (applyCalls s calls).Args = calls.flatMap callValues ∧
    markerCounts (applyCalls s calls) =
      ((calls.map callValues).filter (fun vs => vs ≠ [])).map List.length := by
  have h1 := applyCalls_Args s calls
  have h2 := applyCalls_markerCounts s calls
  have h3 : markerCounts s = [] := by simp [markerCounts, hw]
  rw [ha, List.nil_append] at h1
  rw [h3, List.nil_append] at h2
  refine ⟨?_, h1, h2⟩
  rw [h2, h1, sum_lengths_filter, List.flatMap_def]

/-! ## Lemmas on `ParseInt` -/

theorem digit_toNat_le (c : Char) (h : c ≤ '9') : c.toNat ≤ 57 := by
  have h1 : c.val ≤ ('9' : Char).val := h
  have h2 : c.val.toNat ≤ ('9' : Char).val.toNat := h1
  simpa [Char.toNat] using h2

theorem foldl_digits_ge (cs : List Char) (n : Nat) :
    n ≤ cs.foldl (fun a c => 10 * a + (c.toNat - '0'.toNat)) n := by
  induction cs generalizing n with
  | nil => simp
  | cons c t ih =>
    simp only [List.foldl_cons]
    have := ih (10 * n + (c.toNat - '0'.toNat))
    omega

theorem parseUintLoop_eq (cs : List Char) (n : Nat) (hn : n < 2 ^ 64) :
    parseUintLoop n cs =
      if (∀ c ∈ cs, '0' ≤ c ∧ c ≤ '9') ∧
          cs.foldl (fun a c => 10 * a + (c.toNat - '0'.toNat)) n < 2 ^ 64
      then some (cs.foldl (fun a c => 10 * a + (c.toNat - '0'.toNat)) n) else none := by
  induction cs generalizing n with
  | nil =>
    rw [if_pos ⟨fun c hc => absurd hc (List.not_mem_nil c), hn⟩]
    rfl
  | cons c t ih =>
    have hge := foldl_digits_ge t (10 * n + (c.toNat - '0'.toNat))
    by_cases hc : '0' ≤ c ∧ c ≤ '9'
    · have hd := digit_toNat_le c hc.2
      have h0 : ('0' : Char).toNat = 48 := rfl
      simp only [parseUintLoop, hc, and_self, if_true, List.foldl_cons, List.mem_cons,
        forall_eq_or_imp, true_and]
      by_cases h1 : n ≥ 18446744073709551615 / 10 + 1
      · have : ¬ (List.foldl (fun a c => 10 * a + (c.toNat - '0'.toNat))
            (10 * n + (c.toNat - '0'.toNat)) t < 2 ^ 64) := by omega
        rw [if_pos h1, if_neg (fun h => this h.2)]
      · by_cases h2 : 10 * n + (c.toNat - '0'.toNat) < 2 ^ 64
        · have e0 : n * 10 % 2 ^ 64 = n * 10 := by omega
          have e1 : (n * 10 + (c.toNat - '0'.toNat)) % 2 ^ 64 =
              10 * n + (c.toNat - '0'.toNat) := by omega
          have e2 := ih (10 * n + (c.toNat - '0'.toNat)) h2
          rw [if_neg h1]
          simp only [e0, e1]
          rw [if_neg (by omega), e2]
        · have e0 : n * 10 % 2 ^ 64 = n * 10 := by omega
          have e1 : (n * 10 + (c.toNat - '0'.toNat)) % 2 ^ 64 < n * 10 := by omega
          have : ¬ (List.foldl (fun a c => 10 * a + (c.toNat - '0'.toNat))
            (10 * n + (c.toNat - '0'.toNat)) t < 2 ^ 64) := by omega
          rw [if_neg h1]
          simp only [e0]
          rw [if_pos (Or.inl e1), if_neg (fun h => this h.2)]
    · have : ¬ (∀ x ∈ c :: t, '0' ≤ x ∧ x ≤ '9') := fun h => hc (h c (List.mem_cons_self c t))
      simp only [parseUintLoop, hc, if_false, this, false_and]

theorem ParseUint_eq (body : List Char) :
    ParseUint body =
      if body ≠ [] ∧ (∀ c ∈ body, '0' ≤ c ∧ c ≤ '9') ∧ digitsValue body < 2 ^ 64
      then some (digitsValue body) else none := by
  unfold ParseUint digitsValue
  by_cases hb : body = []
  · rw [if_pos hb, if_neg (fun h => h.1 hb)]
  · rw [if_neg hb, parseUintLoop_eq body 0 (by norm_num)]
    by_cases h : (∀ c ∈ body, '0' ≤ c ∧ c ≤ '9') ∧
        List.foldl (fun a c => 10 * a + (c.toNat - '0'.toNat)) 0 body < 2 ^ 64
    · rw [if_pos h, if_pos ⟨hb, h⟩]
    · rw [if_neg h, if_neg (fun h2 => h h2.2)]

theorem ParseInt_eq (s : String) :
    ParseInt s = if isInt64Literal s then some (literalValue s) else none := by
  obtain ⟨l⟩ := s
  cases l with
  | nil =>
    rw [if_neg (fun h => h.1 rfl)]
    rfl
  | cons c cs =>
    have hP : ParseInt ⟨c :: cs⟩ =
        match ParseUint (if c = '+' ∨ c = '-' then cs else c :: cs) with
        | none => none
        | some un =>
          if !decide (c = '-') && decide (un ≥ 2 ^ 63) then none
          else if decide (c = '-') && decide (un > 2 ^ 63) then none
          else some (if decide (c = '-') then -(un : Int) else (un : Int)) := rfl
    have hV : literalValue ⟨c :: cs⟩ =
        if c = '-' then -(digitsValue (if c = '+' ∨ c = '-' then cs else c :: cs) : Int)
        else (digitsValue (if c = '+' ∨ c = '-' then cs else c :: cs) : Int) := by
      simp [literalValue, literalBody]
    have hL : isInt64Literal ⟨c :: cs⟩ ↔
        (if c = '+' ∨ c = '-' then cs else c :: cs) ≠ [] ∧
        (∀ x ∈ (if c = '+' ∨ c = '-' then cs else c :: cs), '0' ≤ x ∧ x ≤ '9') ∧
        -(2 ^ 63 : Int) ≤ literalValue ⟨c :: cs⟩ ∧ literalValue ⟨c :: cs⟩ < 2 ^ 63 := Iff.rfl
    rw [hP, ParseUint_eq]
    generalize (if c = '+' ∨ c = '-' then cs else c :: cs) = body at hV hL ⊢
    by_cases h : body ≠ [] ∧ (∀ c ∈ body, '0' ≤ c ∧ c ≤ '9') ∧ digitsValue body < 2 ^ 64
    · rw [if_pos h]
      obtain ⟨h1, h2, h3⟩ := h
      by_cases hneg : c = '-'
      · rw [if_pos hneg] at hV
        by_cases hr : digitsValue body > 2 ^ 63
        · have hn : ¬ isInt64Literal ⟨c :: cs⟩ := by
            rw [hL, hV]
            intro h
            have := h.2.2.1
            omega
          rw [if_neg hn]
          simp [hneg, hr]
          omega
        · have hy : isInt64Literal ⟨c :: cs⟩ := by
            rw [hL, hV]
            refine ⟨h1, h2, ?_, ?_⟩ <;> omega
          rw [if_pos hy, hV]
          simp [hneg, hr]
          omega
      · rw [if_neg hneg] at hV
        by_cases hr : digitsValue body ≥ 2 ^ 63
        · have hn : ¬ isInt64Literal ⟨c :: cs⟩ := by
            rw [hL, hV]
            intro h
            have := h.2.2.2
            omega
          rw [if_neg hn]
          simp [hneg, hr]
          omega
        · have hy : isInt64Literal ⟨c :: cs⟩ := by
            rw [hL, hV]
            refine ⟨h1, h2, ?_, ?_⟩ <;> omega
          rw [if_pos hy, hV]
          simp [hneg, hr]
          omega
    · rw [if_neg h]
      have hn : ¬ isInt64Literal ⟨c :: cs⟩ := by
        rw [hL, hV]
        intro h2
        apply h
        refine ⟨h2.1, h2.2.1, ?_⟩
        have ha := h2.2.2.1
        have hb := h2.2.2.2
        by_cases hneg : c = '-'
        · simp only [hneg, if_true] at ha hb
          omega
        · simp only [hneg, if_false] at ha hb
          omega
      rw [if_neg hn]

/-! ## Lemmas on `Transfer` and `Lcfirst` -/

theorem setField_eq (rt : GoRuntime) (f : StructField) (value : Value) :
    setField rt f value = { f with val := coercedValue rt f.typ value f.val } := by
  unfold setField coercedValue
  split_ifs <;> rfl

theorem transferFields_prefix (rt : GoRuntime) (m : Record) (pre rest : List StructField)
    (hpre : ∀ g ∈ pre, g.CanInterface = true ∧ mapIndex m (goBytes g.Name) = none) :
    transferFields rt m (pre ++ rest) =
      ((transferFields rt m rest).1, pre.map (coerceField rt m) ++ (transferFields rt m rest).2) := by
  induction pre with
  | nil => rfl
  | cons g t ih =>
    have hg := hpre g (List.mem_cons_self g t)
    have ht := ih (fun x hx => hpre x (List.mem_cons_of_mem g hx))
    have hc : coerceField rt m g =
        (match mapIndex m (Lcfirst rt (goBytes g.Name)) with
          | some value => setField rt g value
          | none => g) := by
      unfold coerceField
      cases mapIndex m (Lcfirst rt (goBytes g.Name)) with
      | none => rfl
      | some v => simp only [setField_eq]
    rw [List.cons_append, transferFields, if_pos hg.1, hg.2]
    simp only [ht, List.map_cons, List.cons_append, hc]

theorem wrapInt_of_in_range (x : Int) (h : -(2 ^ 31 : Int) ≤ x ∧ x < 2 ^ 31) :
    wrapInt 32 x = x := by
  unfold wrapInt
  omega

theorem Lcfirst_ascii (rt : GoRuntime) (b : Nat) (rest : List Nat) (h : b < 0x80) :
    Lcfirst rt (b :: rest) = (if 0x41 ≤ b ∧ b ≤ 0x5A then b + 0x20 else b) :: rest := by
  have h1 : (decodeRune (b :: rest)).1 = b := by simp [decodeRune, h]
  have h2 : ToLower rt b = if 0x41 ≤ b ∧ b ≤ 0x5A then b + 0x20 else b := by
    unfold ToLower
    rw [if_pos (by omega)]
  have h3 : runeString (ToLower rt b) = [ToLower rt b] := by
    rw [h2]
    unfold runeString utf8Encode
    split_ifs <;> first | rfl | omega
  rw [Lcfirst, h1, h3, h2]
  rfl

/-! ## Lemmas on `Itoa` -/

theorem digitChar_spec : ∀ d, d < 10 →
    ('0' ≤ Nat.digitChar d ∧ Nat.digitChar d ≤ '9') ∧
      (Nat.digitChar d).toNat - '0'.toNat = d := by
  decide

theorem toDigitsCore_spec (fuel : Nat) : ∀ (n : Nat) (ds : List Char), n < fuel →
    ∃ X, Nat.toDigitsCore 10 fuel n ds = X ++ ds ∧ X ≠ [] ∧
      (∀ c ∈ X, '0' ≤ c ∧ c ≤ '9') ∧ digitsValue X = n := by
  induction fuel with
  | zero => intro n ds h; omega
  | succ k ih =>
    intro n ds h
    have hd := digitChar_spec (n % 10) (Nat.mod_lt n (by norm_num))
    rw [Nat.toDigitsCore]
    by_cases h0 : n / 10 = 0
    · refine ⟨[Nat.digitChar (n % 10)], by simp [h0], by simp, ?_, ?_⟩
      · intro c hc
        rw [List.mem_singleton] at hc
        rw [hc]
        exact hd.1
      · simp only [digitsValue, List.foldl_cons, List.foldl_nil]
        omega
    · obtain ⟨X, hX, hne, hdig, hval⟩ := ih (n / 10) (Nat.digitChar (n % 10) :: ds) (by omega)
      refine ⟨X ++ [Nat.digitChar (n % 10)], by simp [h0, hX], by simp, ?_, ?_⟩
      · intro c hc
        rcases List.mem_append.mp hc with hc | hc
        · exact hdig c hc
        · rw [List.mem_singleton] at hc
          rw [hc]
          exact hd.1
      · unfold digitsValue at hval ⊢
        rw [List.foldl_append, hval]
        simp only [List.foldl_cons, List.foldl_nil]
        omega

theorem Nat_repr_spec (m : Nat) :
    (Nat.repr m).data ≠ [] ∧ (∀ c ∈ (Nat.repr m).data, '0' ≤ c ∧ c ≤ '9') ∧
      digitsValue (Nat.repr m).data = m := by
  obtain ⟨X, hX, hne, hdig, hval⟩ := toDigitsCore_spec (m + 1) m [] (by omega)
  have h : (Nat.repr m).data = X := by
    rw [List.append_nil] at hX
    simp [Nat.repr, Nat.toDigits, hX, List.asString]
  rw [h]
  exact ⟨hne, hdig, hval⟩

theorem digit_not_sign (c : Char) (h : '0' ≤ c) : ¬ (c = '+' ∨ c = '-') := by
  rintro (rfl | rfl) <;> exact absurd h (by decide)

theorem literalValue_Itoa (n : Int) :
    literalValue (Itoa n) = n ∧ (∀ c ∈ literalBody (Itoa n), '0' ≤ c ∧ c ≤ '9') ∧
      literalBody (Itoa n) ≠ [] := by
  cases n with
  | ofNat m =>
    obtain ⟨hne, hdig, hval⟩ := Nat_repr_spec m
    have hI : Itoa (Int.ofNat m) = Nat.repr m := rfl
    rw [hI]
    cases hr : (Nat.repr m).data with
    | nil => exact absurd hr hne
    | cons c cs =>
      have hc := (hdig c (by rw [hr]; exact List.mem_cons_self c cs)).1
      have hns := digit_not_sign c hc
      have hb : literalBody (Nat.repr m) = (Nat.repr m).data := by
        unfold literalBody
        rw [hr]
        simp only [if_neg hns]
      have hh : ¬ ((Nat.repr m).data.head? = some '-') := by
        rw [hr]
        simp only [List.head?_cons, Option.some.injEq]
        exact fun h => hns (Or.inr h)
      refine ⟨?_, ?_, ?_⟩
      · unfold literalValue
        rw [if_neg hh, hb, hval]
        rfl
      · rw [hb]; exact hdig
      · rw [hb]; exact hne
  | negSucc m =>
    obtain ⟨hne, hdig, hval⟩ := Nat_repr_spec (m + 1)
    have hI : (Itoa (Int.negSucc m)).data = '-' :: (Nat.repr (m + 1)).data := by
      simp [Itoa, String.data_append]
    have hb : literalBody (Itoa (Int.negSucc m)) = (Nat.repr (m + 1)).data := by
      unfold literalBody
      rw [hI]
      simp
    refine ⟨?_, ?_, ?_⟩
    · unfold literalValue
      rw [hb, hI, hval]
      simp only [List.head?_cons, if_true]
      rfl
    · rw [hb]; exact hdig
    · rw [hb]; exact hne

theorem transferFields_fails_of_non_exported (rt : GoRuntime) (m : Record)
    (fields : List StructField) (h : ∃ g ∈ fields, g.CanInterface = false) :
    (transferFields rt m fields).1 = some "wrong struct field" ∨
      (transferFields rt m fields).1 = some "wrong map key" := by
  induction fields with
  | nil =>
    obtain ⟨g, hg, _⟩ := h
    exact absurd hg (List.not_mem_nil g)
  | cons f t ih =>
    rw [transferFields]
    by_cases hf : f.CanInterface = true
    · rw [if_pos hf]
      cases hk : mapIndex m (goBytes f.Name) with
      | some v => exact Or.inr rfl
      | none =>
        obtain ⟨g, hg, hgf⟩ := h
        rcases List.mem_cons.mp hg with hgeq | hgt
        · rw [hgeq, hf] at hgf
          exact absurd hgf (by decide)
        · exact ih ⟨g, hgt, hgf⟩
    · rw [if_neg hf]
      exact Or.inl rfl

/-! ## Lemmas on the conversion of a float to `int64` -/

theorem tdiv_of_IsTruncation (mant : Int) (k : Nat) (t : Int) (h : IsTruncation mant k t) :
    mant.tdiv (2 ^ k) = t := by
  have hd : (0 : Int) < 2 ^ k := by positivity
  by_cases hm : 0 ≤ mant
  · obtain ⟨_, h1, h2⟩ := h.1 hm
    rw [Int.tdiv_eq_ediv hm (le_of_lt hd)]
    apply le_antisymm
    · exact Int.lt_add_one_iff.mp (Int.ediv_lt_of_lt_mul hd h2)
    · exact Int.le_ediv_of_mul_le hd h1
  · obtain ⟨_, h1, h2⟩ := h.2 (by omega)
    have e : mant = -(-mant) := by omega
    rw [e, Int.neg_tdiv, Int.tdiv_eq_ediv (by omega) (le_of_lt hd)]
    have a1 : (-t) * 2 ^ k ≤ -mant := by linarith
    have a2 : -mant < (-t + 1) * 2 ^ k := by linarith
    have : -mant / 2 ^ k = -t := by
      apply le_antisymm
      · exact Int.lt_add_one_iff.mp (Int.ediv_lt_of_lt_mul hd a2)
      · exact Int.le_ediv_of_mul_le hd a1
    omega

/-! ## The claims -/

/-- C1: for every builder `s` and field name `f`, `WhereIn f []` and `WhereNotIn f []` return
the builder `s` itself, so the table, fields, filters, joins, raw filter fragment, raw update
fragments, values, order, offset, limit and args are those of `s`. -/
theorem WhereIn_WhereNotIn_empty_unchanged (s : Sql) (f : String) :
    s.WhereIn f [] = s ∧ s.WhereNotIn f [] = s ∧
    (s.WhereIn f []).toSqlComponent = s.toSqlComponent ∧
    (s.WhereNotIn f []).toSqlComponent = s.toSqlComponent :=
  ⟨rfl, rfl, rfl, rfl⟩

/-- C2: for every sequence of `Where` / `WhereIn` / `WhereNotIn` calls applied to a new
builder or to a recycled one, the `?` markers of the resulting filters, summed in filter
order, are as many as the final args; args is the concatenation, in call order, of the values
given to the calls; and filter by filter the marker counts are the lengths of the non-empty
value lists, in call order.  The chain `Table("users").Where("age",">",18)
.WhereIn("role",["admin","editor"]).Take(10)` has the shapes `?` and `(?,?)`, the args
`[18,"admin","editor"]` and the limit `"10"`. -/
theorem filter_calls_markers_match_args (conn : DB) (s : Sql) (calls : List Call) :
    ((markerCounts (applyCalls (SqlPoolNew conn) calls)).sum =
        (applyCalls (SqlPoolNew conn) calls).Args.length ∧
      (applyCalls (SqlPoolNew conn) calls).Args = calls.flatMap callValues ∧
      markerCounts (applyCalls (SqlPoolNew conn) calls) =
        ((calls.map callValues).filter (fun vs => vs ≠ [])).map List.length) ∧
    ((markerCounts (applyCalls (RecycleSql s) calls)).sum =
        (applyCalls (RecycleSql s) calls).Args.length ∧
      (applyCalls (RecycleSql s) calls).Args = calls.flatMap callValues ∧
      markerCounts (applyCalls (RecycleSql s) calls) =
        ((calls.map callValues).filter (fun vs => vs ≠ [])).map List.length) ∧
    (((((Table (SqlPoolNew textDB) textDB "users").Where "age" ">" (Value.int 18)).WhereIn
        "role" [Value.str "admin", Value.str "editor"]).Take 10).Wheres =
        [{ Field := "age", Operation := ">", Qmark := "?" },
         { Field := "role", Operation := "in", Qmark := "(?,?)" }] ∧
      ((((Table (SqlPoolNew textDB) textDB "users").Where "age" ">" (Value.int 18)).WhereIn
        "role" [Value.str "admin", Value.str "editor"]).Take 10).Args =
        [Value.int 18, Value.str "admin", Value.str "editor"] ∧
      ((((Table (SqlPoolNew textDB) textDB "users").Where "age" ">" (Value.int 18)).WhereIn
        "role" [Value.str "admin", Value.str "editor"]).Take 10).Limit = "10") :=
  ⟨applyCalls_aligned (SqlPoolNew conn) calls rfl rfl,
   applyCalls_aligned (RecycleSql s) calls rfl rfl,
   by decide, by decide, by decide⟩

/-- C3: for every builder, every values map and every connection (whatever `Query` and `Exec`
return, whether the operation reports an error or not), the builder after each of `First`,
`All`, `ShowColumns`, `ShowTables`, `Insert`, `Update`, `Delete` and `Exec` has empty fields,
filters, joins, args and table name, empty order, offset and limit, an empty raw filter
fragment, no raw update fragment and an empty statement text. -/
theorem terminal_operations_leave_builder_cleared (sql : Sql) (values : dialect.H) :
    Cleared sql.First.sql ∧ Cleared sql.All.sql ∧ Cleared sql.ShowColumns.sql ∧
    Cleared sql.ShowTables.sql ∧ Cleared (sql.Insert values).sql ∧
    Cleared (sql.Update values).sql ∧ Cleared sql.Delete.sql ∧ Cleared sql.Exec.sql := by
  refine ⟨?_, ?_, ?_, ?_, ?_, ?_, ?_, ?_⟩ <;>
    exact ⟨rfl, rfl, rfl, rfl, rfl, rfl, rfl, rfl, rfl, rfl, rfl⟩

/-- C4: `RecycleSql`, the reset at the end of a terminal operation, leaves `Values` as it is
for every builder.  On a new
builder with a dialect that only writes statement text, `Update({"name":"b"})` and
`Insert({"name":"b"})` leave the recycled builder with the values `{"name":"b"}`, and a later
`Table("logs").UpdateRaw("hits = hits + 1").Exec()` on that builder compiles a statement that
assigns the stale column `name`. -/
theorem recycled_builder_keeps_values :
    (∀ s : Sql, (RecycleSql s).Values = s.Values) ∧
    ((SqlPoolNew textDB).Update [("name", Value.str "b")]).sql.Values =
      [("name", Value.str "b")] ∧
    ((SqlPoolNew textDB).Insert [("name", Value.str "b")]).sql.Values =
      [("name", Value.str "b")] ∧
    (((((SqlPoolNew textDB).Update [("name", Value.str "b")]).sql.Table "logs").UpdateRaw
      "hits = hits + 1" []).Exec).stmt = "update logs set hits = hits + 1, name = ?" := by
  refine ⟨fun _ => rfl, by decide, by decide, by decide⟩

/-- C5, as stated, fails: on a new builder `UpdateRaw("hits = hits + ?", 1)` leaves args
empty instead of `[1]`. -/
theorem UpdateRaw_does_not_append_args :
    ((SqlPoolNew textDB).UpdateRaw "hits = hits + ?" [Value.int 1]).Args ≠
      (SqlPoolNew textDB).Args ++ [Value.int 1] := by
  decide

/-- C5, amended: for every builder `s`, expression `e` and argument list `a`,
`UpdateRaw(e, a...)` appends the one fragment with expression `e` and arguments `a` (in order)
to the raw update fragments, and leaves args and every other field as they were. -/
theorem UpdateRaw_appends_fragment_keeps_args (s : Sql) (e : String) (a : List Value) :
    (s.UpdateRaw e a).UpdateRaws = s.UpdateRaws ++ [{ Expression := e, Args := a }] ∧
    (s.UpdateRaw e a).Args = s.Args ∧
    s.UpdateRaw e a =
      { s with UpdateRaws := s.UpdateRaws ++ [{ Expression := e, Args := a }] } :=
  ⟨rfl, rfl, rfl⟩

/-- C6, as stated, fails: with a dialect that only produces statement text and never changes
args, `Where("id","=",1)` followed by `Update({"name":"b"})` on a new builder hands `Exec` the
arguments `[1]`, not `["b", 1]`. -/
theorem Update_text_only_dialect_passes_filter_args_only :
    (∀ c, (textDB.dialect.Update c).Args = c.Args) ∧
    (((SqlPoolNew textDB).Where "id" "=" (Value.int 1)).Update
      [("name", Value.str "b")]).args = [Value.int 1] ∧
    (((SqlPoolNew textDB).Where "id" "=" (Value.int 1)).Update
      [("name", Value.str "b")]).args ≠ [Value.str "b", Value.int 1] :=
  ⟨fun _ => rfl, by decide, by decide⟩

/-- C6, amended: for every builder, values map and dialect, `Update(values)` hands `Exec`
the statement text and the args exactly as the `Update` method of the dialect leaves them in
the component once `Values` is stored; so with a dialect whose `Update` never changes args,
the arguments passed to `Exec` are the args the builder held before the call (the filter
arguments alone, in call order), without the update values; and with a dialect whose `Update`
puts the update values in front of args, they are the update values followed by the filter
arguments. -/
theorem Update_passes_args_as_dialect_leaves_them (sql : Sql) (values : dialect.H) :
    (sql.Update values).stmt =
      (sql.connection.dialect.Update { sql.toSqlComponent with Values := values }).Statement ∧
    (sql.Update values).args =
      (sql.connection.dialect.Update { sql.toSqlComponent with Values := values }).Args ∧
    ((∀ c, (sql.connection.dialect.Update c).Args = c.Args) →
      (sql.Update values).args = sql.Args) ∧
    ((∀ c, (sql.connection.dialect.Update c).Args = c.Values.map Prod.snd ++ c.Args) →
      (sql.Update values).args = values.map Prod.snd ++ sql.Args) :=
  ⟨rfl, rfl, fun h => h _, fun h => h _⟩

/-- C6: witness of `Update_passes_args_as_dialect_leaves_them` at `Where("id","=",1)` followed by
`Update({"name":"b"})`: with the dialect `textDialect`, which never changes args, `Exec`
receives `[1]`; with a dialect that differs from it in putting the update values in front of
args, `Exec` receives `["b", 1]`. -/
theorem Update_passes_args_as_dialect_leaves_them_witness :
    (∀ c, (textDB.dialect.Update c).Args = c.Args) ∧
    (((SqlPoolNew textDB).Where "id" "=" (Value.int 1)).Update
      [("name", Value.str "b")]).args = [Value.int 1] ∧
    (∀ c, (prependingDB.dialect.Update c).Args = c.Values.map Prod.snd ++ c.Args) ∧
    (((SqlPoolNew prependingDB).Where "id" "=" (Value.int 1)).Update
      [("name", Value.str "b")]).args = [Value.str "b", Value.int 1] :=
  ⟨fun _ => rfl,
   (Update_passes_args_as_dialect_leaves_them ((SqlPoolNew textDB).Where "id" "=" (Value.int 1))
      [("name", Value.str "b")]).2.2.1 (fun _ => rfl),
   fun _ => rfl,
   (Update_passes_args_as_dialect_leaves_them
      ((SqlPoolNew prependingDB).Where "id" "=" (Value.int 1))
      [("name", Value.str "b")]).2.2.2 (fun _ => rfl)⟩

/-- C7: for every builder `s`, field `f`, operation `op` and value `v`, `Where(f, op, v)`
appends the filter with field `f`, operation `op` and placeholder `?` to the filters, appends
`v` to args, and leaves table, fields, joins, raw filter fragment, raw update fragments,
values, order, offset and limit (and the statement text and connection) unchanged. -/
theorem Where_appends_filter_and_arg (s : Sql) (f op : String) (v : Value) :
    (s.Where f op v).Wheres = s.Wheres ++ [{ Field := f, Operation := op, Qmark := "?" }] ∧
    (s.Where f op v).Args = s.Args ++ [v] ∧
    (s.Where f op v).TableName = s.TableName ∧
    (s.Where f op v).Fields = s.Fields ∧
    (s.Where f op v).Leftjoins = s.Leftjoins ∧
    (s.Where f op v).WhereRaws = s.WhereRaws ∧
    (s.Where f op v).UpdateRaws = s.UpdateRaws ∧
    (s.Where f op v).Values = s.Values ∧
    (s.Where f op v).Order = s.Order ∧
    (s.Where f op v).Offset = s.Offset ∧
    (s.Where f op v).Limit = s.Limit ∧
    (s.Where f op v).Statement = s.Statement ∧
    (s.Where f op v).connection = s.connection :=
  ⟨rfl, rfl, rfl, rfl, rfl, rfl, rfl, rfl, rfl, rfl, rfl, rfl, rfl⟩

/-- C8: for every non-empty value list `vs` of length `n`, `WhereIn(f, vs)` (resp.
`WhereNotIn`) appends exactly one filter, with field `f`, operation `in` (resp. `not in`) and
the placeholder shape made of `(`, `n` markers `?` separated by commas, and `)`; that shape has
exactly `n` characters `?`; and args becomes the old args followed by `vs` in order. -/
theorem WhereIn_WhereNotIn_nonempty (s : Sql) (f : String) (vs : List Value) (h : vs ≠ []) :
    (s.WhereIn f vs).Wheres =
      s.Wheres ++ [{ Field := f, Operation := "in", Qmark := placeholderShape vs.length }] ∧
    (s.WhereIn f vs).Args = s.Args ++ vs ∧
    (s.WhereNotIn f vs).Wheres =
      s.Wheres ++ [{ Field := f, Operation := "not in", Qmark := placeholderShape vs.length }] ∧
    (s.WhereNotIn f vs).Args = s.Args ++ vs ∧
    qmarkCount (placeholderShape vs.length) = vs.length := by
  have hn : vs.length ≠ 0 := fun h0 => h (List.length_eq_zero.mp h0)
  refine ⟨?_, ?_, ?_, ?_, qmarkCount_placeholderShape vs.length hn⟩
  · simp [Sql.WhereIn, hn, source_shape_eq vs.length hn]
  · simp [Sql.WhereIn, hn]
  · simp [Sql.WhereNotIn, hn, source_shape_eq vs.length hn]
  · simp [Sql.WhereNotIn, hn]

/-- C8: witness of `WhereIn_WhereNotIn_nonempty` at the value list `["admin","editor"]`. -/
theorem WhereIn_WhereNotIn_nonempty_witness :
    [Value.str "admin", Value.str "editor"] ≠ [] ∧
    ((SqlPoolNew textDB).WhereIn "role" [Value.str "admin", Value.str "editor"]).Wheres =
      [{ Field := "role", Operation := "in", Qmark := "(?,?)" }] ∧
    ((SqlPoolNew textDB).WhereIn "role" [Value.str "admin", Value.str "editor"]).Args =
      [Value.str "admin", Value.str "editor"] :=
  ⟨by decide,
   (WhereIn_WhereNotIn_nonempty (SqlPoolNew textDB) "role"
      [Value.str "admin", Value.str "editor"] (by decide)).1.trans (by decide),
   (WhereIn_WhereNotIn_nonempty (SqlPoolNew textDB) "role"
      [Value.str "admin", Value.str "editor"] (by decide)).2.1⟩

/-- C9: for every builder `s`, `WhereRaw(e, a...)` sets the raw filter fragment to `e` and
appends `a` to args; after two successive calls `WhereRaw(e1, a1...).WhereRaw(e2, a2...)` the
fragment is `e2` alone and args is the old args followed by `a1` and then `a2`. -/
theorem WhereRaw_sets_fragment_appends_args (s : Sql) (e e1 e2 : String)
    (a a1 a2 : List Value) :
    (s.WhereRaw e a).WhereRaws = e ∧
    (s.WhereRaw e a).Args = s.Args ++ a ∧
    ((s.WhereRaw e1 a1).WhereRaw e2 a2).WhereRaws = e2 ∧
    ((s.WhereRaw e1 a1).WhereRaw e2 a2).Args = s.Args ++ a1 ++ a2 :=
  ⟨rfl, rfl, rfl, rfl⟩

/-- C10: for every builder, with `rs` the rows the query collaborator returns for the compiled
select: `First()` returns the error `out of index` if and only if `rs` is empty, returns any
error only then, and otherwise returns the first row of `rs` with no error; `All()` returns the
whole of `rs`, empty or not, with no error. -/
theorem First_All_results (sql : Sql) :
    (sql.First.ret.2 = some "out of index" ↔ selectRows sql = []) ∧
    (sql.First.ret.2 ≠ none ↔ selectRows sql = []) ∧
    sql.First.ret =
      (match selectRows sql with
        | [] => (none, some "out of index")
        | r :: _ => (some r, none)) ∧
    sql.All.ret = (selectRows sql, none) := by
  have hq : sql.First.ret =
      if (selectRows sql).length < 1 then (none, some "out of index")
      else ((selectRows sql)[0]?, none) := rfl
  refine ⟨?_, ?_, ?_, rfl⟩
  · rw [hq]
    cases selectRows sql with
    | nil => simp
    | cons r t => simp
  · rw [hq]
    cases selectRows sql with
    | nil => simp
    | cons r t => simp
  · rw [hq]
    cases selectRows sql with
    | nil => simp
    | cons r t => simp

/-- C11: for every builder and values map, against the result `Exec` returns for the compiled
statement: each of `Insert`, `Update` and `Exec` returns 0 with the error `no affect row` when
the affected-row count is below one and otherwise returns what `LastInsertId` gives, so for a
result whose identifier comes without an error it fails if and only if the count is below one;
`Delete` returns the error `no affect row` if and only if the count is below one, and no error
otherwise. -/
theorem write_operations_fail_iff_no_row_affected (sql : Sql) (values : dialect.H) :
    WriteContract (sql.Insert values).ret
      (execResult { sql with Values := values } sql.connection.dialect.Insert) ∧
    WriteContract (sql.Update values).ret
      (execResult { sql with Values := values } sql.connection.dialect.Update) ∧
    WriteContract sql.Exec.ret (execResult sql sql.connection.dialect.Update) ∧
    (sql.Delete.ret = some "no affect row" ↔
      (execResult sql sql.connection.dialect.Delete).RowsAffected.1 < 1) ∧
    (sql.Delete.ret = none ↔
      1 ≤ (execResult sql sql.connection.dialect.Delete).RowsAffected.1) := by
  have key : ∀ r : ExecResult,
      WriteContract
        (if r.RowsAffected.1 < 1 then (0, some "no affect row") else r.LastInsertId) r := by
    intro r
    by_cases h : r.RowsAffected.1 < 1
    · refine ⟨fun _ => by rw [if_pos h], fun h1 => by omega, fun _ => ?_, fun _ => ?_⟩ <;>
        simp [h]
    · refine ⟨fun h1 => absurd h1 h, fun _ => by rw [if_neg h], fun h2 => ?_, fun h2 => ?_⟩ <;>
        simp [h, h2]
  refine ⟨key _, key _, key _, ?_, ?_⟩
  · show (if (execResult sql sql.connection.dialect.Delete).RowsAffected.1 < 1
        then some "no affect row" else none) = some "no affect row" ↔ _
    by_cases h : (execResult sql sql.connection.dialect.Delete).RowsAffected.1 < 1 <;> simp [h]
  · show (if (execResult sql sql.connection.dialect.Delete).RowsAffected.1 < 1
        then some "no affect row" else none) = none ↔ _
    by_cases h : (execResult sql sql.connection.dialect.Delete).RowsAffected.1 < 1
    · simp [h]
    · simp [h]
      omega

/-- C11: witness of `write_operations_fail_iff_no_row_affected`: with no affected row `Insert`
returns the error `no affect row`, and with two affected rows and identifier 7 it returns 7
and no error. -/
theorem write_operations_fail_iff_no_row_affected_witness :
    ((SqlPoolNew (fixedDB [] 0 7)).Insert [("name", Value.str "a")]).ret =
      (0, some "no affect row") ∧
    ((SqlPoolNew (fixedDB [] 2 7)).Insert [("name", Value.str "a")]).ret = (7, none) :=
  ⟨(write_operations_fail_iff_no_row_affected (SqlPoolNew (fixedDB [] 0 7))
      [("name", Value.str "a")]).1.1 (by decide),
   (write_operations_fail_iff_no_row_affected (SqlPoolNew (fixedDB [] 2 7))
      [("name", Value.str "a")]).1.2.1 (by decide)⟩

/-- C12: `FormFirst` drops the error of `Transfer`.  When `First` returns an error, `FormFirst`
returns it; but for the row `{"Name": "x"}` and a pointer to a struct with the string field
`Name`, `Transfer` returns `wrong map key` while `FormFirst` returns no error, and for a
target that is no pointer `Transfer` returns `wrong type` while `FormFirst` returns no
error. -/
theorem FormFirst_drops_Transfer_error :
    (∀ (rt : GoRuntime) (sql : Sql) (v : Target) (err : String),
      sql.First.ret.2 = some err → (sql.FormFirst rt v).ret = (Exit.returned (some err), v)) ∧
    (Transfer exampleRuntime [("Name", Value.str "x")]
      (Target.pointer (Pointee.struct [⟨"Name", true, "string", Value.str ""⟩]))).1 =
      Exit.returned (some "wrong map key") ∧
    ((SqlPoolNew (fixedDB [[("Name", Value.str "x")]] 0 0)).FormFirst exampleRuntime
      (Target.pointer (Pointee.struct [⟨"Name", true, "string", Value.str ""⟩]))).ret.1 =
      Exit.returned none ∧
    (Transfer exampleRuntime [("name", Value.str "x")]
      (Target.direct (Pointee.struct [⟨"Name", true, "string", Value.str ""⟩]))).1 =
      Exit.returned (some "wrong type") ∧
    ((SqlPoolNew (fixedDB [[("name", Value.str "x")]] 0 0)).FormFirst exampleRuntime
      (Target.direct (Pointee.struct [⟨"Name", true, "string", Value.str ""⟩]))).ret.1 =
      Exit.returned none := by
  refine ⟨?_, by decide, by decide, by decide, by decide⟩
  intro rt sql v err h
  simp only [Sql.FormFirst, h]

/-- C13, as stated, fails: for the record `{"n": int64(4294967301)}` and a pointer to a struct
with the `int32` field `N`, `InterfaceToInt64` of the value is 4294967301 but the field is set
to 5. -/
theorem Transfer_int32_field_is_narrowed :
    InterfaceToInt64 exampleRuntime (Value.int64 4294967301) = 4294967301 ∧
    Transfer exampleRuntime [("n", Value.int64 4294967301)]
      (Target.pointer (Pointee.struct [⟨"N", true, "int32", Value.int32 0⟩])) =
      (Exit.returned none,
        Target.pointer (Pointee.struct [⟨"N", true, "int32", Value.int32 5⟩])) := by
  refine ⟨by decide, by decide⟩

/-- C13, amended: for every record `m` and every target struct all of whose fields are exported
and none of whose exact field names is a key of `m`, `Transfer` returns no error and leaves
each field `F` as follows: if `m` has the key `Lcfirst(F)` and `F` has type string, bool, int
or int64, or float64, `F` holds `InterfaceToString`, `InterfaceToBool`, `InterfaceToInt64`,
`InterfaceToFloat64` of that value; for type int32 it holds `InterfaceToInt64` of the value
reduced to 32 bits (the value itself when it is within the `int32` range); for type float32
it holds the `float32` conversion of `InterfaceToFloat64` of the value; if `m` has no such
key, or `F` has any other type, `F` keeps its previous value. -/
theorem Transfer_coerces_fields_by_lower_key (rt : GoRuntime) (m : Record)
    (fields : List StructField)
    (hexp : ∀ f ∈ fields, f.CanInterface = true)
    (hkey : ∀ f ∈ fields, mapIndex m (goBytes f.Name) = none) :
    Transfer rt m (Target.pointer (Pointee.struct fields)) =
      (Exit.returned none,
        Target.pointer (Pointee.struct (fields.map (coerceField rt m)))) ∧
    (∀ x : Int, -(2 ^ 31 : Int) ≤ x ∧ x < 2 ^ 31 → wrapInt 32 x = x) := by
  refine ⟨?_, wrapInt_of_in_range⟩
  have h := transferFields_prefix rt m fields [] (fun g hg => ⟨hexp g hg, hkey g hg⟩)
  rw [List.append_nil] at h
  simp only [Transfer, h, transferFields, List.append_nil]

/-- C13: witness of `Transfer_coerces_fields_by_lower_key`: `Transfer({"age": "34"},
&Person{})` with the integer field `Age` returns no error and sets `Age` to 34. -/
theorem Transfer_coerces_fields_by_lower_key_witness :
    Transfer exampleRuntime [("age", Value.str "34")]
      (Target.pointer (Pointee.struct [⟨"Age", true, "int", Value.int 0⟩])) =
      (Exit.returned none,
        Target.pointer (Pointee.struct [⟨"Age", true, "int", Value.int 34⟩])) :=
  (Transfer_coerces_fields_by_lower_key exampleRuntime [("age", Value.str "34")]
    [⟨"Age", true, "int", Value.int 0⟩] (by decide) (by decide)).1.trans (by decide)

/-- C14: for every record `m` and target struct, if an exported field has its exact name as a
key of `m`, and every earlier field is exported and has no exact-name key, `Transfer` returns
the error `wrong map key`, leaves that field as it was, and leaves every later field as it
was, whatever keys `m` has for them; the earlier fields are as the coercion left them. -/
theorem Transfer_exact_key_is_wrong_map_key (rt : GoRuntime) (m : Record)
    (pre : List StructField) (f : StructField) (post : List StructField)
    (hpre : ∀ g ∈ pre, g.CanInterface = true ∧ mapIndex m (goBytes g.Name) = none)
    (hf : f.CanInterface = true) (hk : (mapIndex m (goBytes f.Name)).isSome = true) :
    Transfer rt m (Target.pointer (Pointee.struct (pre ++ f :: post))) =
      (Exit.returned (some "wrong map key"),
        Target.pointer (Pointee.struct (pre.map (coerceField rt m) ++ f :: post))) := by
  obtain ⟨v, hv⟩ := Option.isSome_iff_exists.mp hk
  have h : transferFields rt m (f :: post) = (some "wrong map key", f :: post) := by
    rw [transferFields, if_pos hf, hv]
  simp only [Transfer, transferFields_prefix rt m pre (f :: post) hpre, h]

/-- C14: witness of `Transfer_exact_key_is_wrong_map_key`: for the record `{"Name": "x",
"age": "34"}` and the fields `Name` and `Age`, `Transfer` returns `wrong map key` and `Age`
keeps 0 although the key `age` is present. -/
theorem Transfer_exact_key_is_wrong_map_key_witness :
    Transfer exampleRuntime [("Name", Value.str "x"), ("age", Value.str "34")]
      (Target.pointer (Pointee.struct
        [⟨"Name", true, "string", Value.str ""⟩, ⟨"Age", true, "int", Value.int 0⟩])) =
      (Exit.returned (some "wrong map key"),
        Target.pointer (Pointee.struct
          [⟨"Name", true, "string", Value.str ""⟩, ⟨"Age", true, "int", Value.int 0⟩])) :=
  Transfer_exact_key_is_wrong_map_key exampleRuntime
    [("Name", Value.str "x"), ("age", Value.str "34")] []
    ⟨"Name", true, "string", Value.str ""⟩ [⟨"Age", true, "int", Value.int 0⟩]
    (fun g hg => absurd hg (List.not_mem_nil g)) rfl (by decide)

/-- C15: for a target that is no pointer and for a nil pointer `Transfer` returns the error
`wrong type` and leaves the target as it was; for a pointer to a value that is no struct, here
a pointer to the integer 0, `Transfer` does not return `wrong type`: it panics. -/
theorem Transfer_pointer_to_non_struct_panics :
    (∀ (rt : GoRuntime) (m : Record) (x : Pointee),
      Transfer rt m (Target.direct x) = (Exit.returned (some "wrong type"), Target.direct x)) ∧
    (∀ (rt : GoRuntime) (m : Record),
      Transfer rt m Target.nilPointer = (Exit.returned (some "wrong type"), Target.nilPointer)) ∧
    Transfer exampleRuntime [] (Target.pointer (Pointee.other (Value.int 0))) =
      (Exit.panicked, Target.pointer (Pointee.other (Value.int 0))) ∧
    (Transfer exampleRuntime [] (Target.pointer (Pointee.other (Value.int 0)))).1 ≠
      Exit.returned (some "wrong type") := by
  refine ⟨fun _ _ _ => rfl, fun _ _ => rfl, by decide, by decide⟩

/-- C16, as stated, fails: for the record `{"name": "x"}` and a pointer to a struct with the
exported string field `Name` followed by the non-exported field `age`, `Transfer` returns
`wrong struct field` and yet has set `Name` to `x`; and for the record `{"Name": "x"}` it
returns `wrong map key`, not `wrong struct field`. -/
theorem Transfer_wrong_struct_field_after_modification :
    Transfer exampleRuntime [("name", Value.str "x")]
      (Target.pointer (Pointee.struct
        [⟨"Name", true, "string", Value.str ""⟩, ⟨"age", false, "int", Value.int 0⟩])) =
      (Exit.returned (some "wrong struct field"),
        Target.pointer (Pointee.struct
          [⟨"Name", true, "string", Value.str "x"⟩, ⟨"age", false, "int", Value.int 0⟩])) ∧
    (Transfer exampleRuntime [("Name", Value.str "x")]
      (Target.pointer (Pointee.struct
        [⟨"Name", true, "string", Value.str ""⟩, ⟨"age", false, "int", Value.int 0⟩]))).1 =
      Exit.returned (some "wrong map key") := by
  refine ⟨by decide, by decide⟩

/-- C16, amended: for every record `m` and target struct, if a field is non-exported, and every
earlier field is exported and has no exact-name key in `m`, `Transfer` returns the error
`wrong struct field`, and leaves the non-exported field and every later field as they were;
the earlier fields are as the coercion left them (those with a lower-first-letter key in `m`
have been set).  Whatever the record and the place of the non-exported field, `Transfer`
returns an error: `wrong struct field`, or `wrong map key` when an earlier field has its exact
name as a key. -/
theorem Transfer_non_exported_field_is_wrong_struct_field (rt : GoRuntime) (m : Record)
    (pre : List StructField) (f : StructField) (post : List StructField)
    (hpre : ∀ g ∈ pre, g.CanInterface = true ∧ mapIndex m (goBytes g.Name) = none)
    (hf : f.CanInterface = false) :
    Transfer rt m (Target.pointer (Pointee.struct (pre ++ f :: post))) =
      (Exit.returned (some "wrong struct field"),
        Target.pointer (Pointee.struct (pre.map (coerceField rt m) ++ f :: post))) ∧
    (∀ (m1 : Record) (before after : List StructField),
      (Transfer rt m1 (Target.pointer (Pointee.struct (before ++ f :: after)))).1 =
          Exit.returned (some "wrong struct field") ∨
        (Transfer rt m1 (Target.pointer (Pointee.struct (before ++ f :: after)))).1 =
          Exit.returned (some "wrong map key")) := by
  have h : transferFields rt m (f :: post) = (some "wrong struct field", f :: post) := by
    rw [transferFields, if_neg (by simp [hf])]
  refine ⟨by simp only [Transfer, transferFields_prefix rt m pre (f :: post) hpre, h], ?_⟩
  intro m1 before after
  have hex : ∃ g ∈ before ++ f :: after, g.CanInterface = false :=
    ⟨f, List.mem_append_right before (List.mem_cons_self f after), hf⟩
  rcases transferFields_fails_of_non_exported rt m1 (before ++ f :: after) hex with h1 | h1
  · exact Or.inl (by simp only [Transfer, h1])
  · exact Or.inr (by simp only [Transfer, h1])

/-- C16: witness of `Transfer_non_exported_field_is_wrong_struct_field`: for the record
`{"name": "x", "city": "y"}` and the fields `Name`, `age` (non-exported) and `City`,
`Transfer` returns `wrong struct field`, `Name` is set and `City` is not. -/
theorem Transfer_non_exported_field_is_wrong_struct_field_witness :
    Transfer exampleRuntime [("name", Value.str "x"), ("city", Value.str "y")]
      (Target.pointer (Pointee.struct
        [⟨"Name", true, "string", Value.str ""⟩, ⟨"age", false, "int", Value.int 0⟩,
         ⟨"City", true, "string", Value.str ""⟩])) =
      (Exit.returned (some "wrong struct field"),
        Target.pointer (Pointee.struct
          [⟨"Name", true, "string", Value.str "x"⟩, ⟨"age", false, "int", Value.int 0⟩,
           ⟨"City", true, "string", Value.str ""⟩])) :=
  (Transfer_non_exported_field_is_wrong_struct_field exampleRuntime
    [("name", Value.str "x"), ("city", Value.str "y")]
    [⟨"Name", true, "string", Value.str ""⟩] ⟨"age", false, "int", Value.int 0⟩
    [⟨"City", true, "string", Value.str ""⟩] (by decide) rfl).1.trans (by decide)

/-- C17: on every dynamically typed value: `InterfaceToInt64` gives `v` for an `int64` value
`v`; for a string that is a valid base-10 signed 64-bit integer literal it gives the value of
the literal, and for every other string it gives 0 (the empty string, a non-numeric string, one
with a decimal point or with a space, one out of range); for a boolean and for nil it gives 0.
On the kinds the reference does not name: for an `int`, an `int32` and a `float32` it gives 0;
for a `float64` it gives the float with its fraction discarded (`mant * 2 ^ exp` itself for
`exp ≥ 0`, the truncation toward zero for `exp < 0`) when that lies in the `int64` range, and
what the platform gives for a float out of that range, an infinity or NaN; so 34.9 gives 34 and
-34.875 gives -34. -/
theorem InterfaceToInt64_reference (rt : GoRuntime) :
    (∀ v : Int, InterfaceToInt64 rt (Value.int64 v) = v) ∧
    (∀ s : String, InterfaceToInt64 rt (Value.str s) =
      if isInt64Literal s then literalValue s else 0) ∧
    (∀ b : Bool, InterfaceToInt64 rt (Value.bool b) = 0) ∧
    InterfaceToInt64 rt Value.nil = 0 ∧
    InterfaceToInt64 rt (Value.str "34") = 34 ∧
    InterfaceToInt64 rt (Value.str "-9223372036854775808") = -9223372036854775808 ∧
    InterfaceToInt64 rt (Value.str "") = 0 ∧
    InterfaceToInt64 rt (Value.str "abc") = 0 ∧
    InterfaceToInt64 rt (Value.str "3.4") = 0 ∧
    InterfaceToInt64 rt (Value.str " 5") = 0 ∧
    InterfaceToInt64 rt (Value.str "9223372036854775808") = 0 ∧
    (∀ n : Int, InterfaceToInt64 rt (Value.int n) = 0) ∧
    (∀ n : Int, InterfaceToInt64 rt (Value.int32 n) = 0) ∧
    (∀ x : F64, InterfaceToInt64 rt (Value.float32 x) = 0) ∧
    (∀ (mant exp : Int), 0 ≤ exp →
      -(2 ^ 63 : Int) ≤ mant * 2 ^ exp.toNat ∧ mant * 2 ^ exp.toNat < 2 ^ 63 →
      InterfaceToInt64 rt (Value.float64 (F64.finite mant exp)) = mant * 2 ^ exp.toNat) ∧
    (∀ (mant exp t : Int), exp < 0 → IsTruncation mant (-exp).toNat t →
      -(2 ^ 63 : Int) ≤ t ∧ t < 2 ^ 63 →
      InterfaceToInt64 rt (Value.float64 (F64.finite mant exp)) = t) ∧
    (∀ (mant exp : Int), 0 ≤ exp →
      ¬ (-(2 ^ 63 : Int) ≤ mant * 2 ^ exp.toNat ∧ mant * 2 ^ exp.toNat < 2 ^ 63) →
      InterfaceToInt64 rt (Value.float64 (F64.finite mant exp)) =
        rt.int64OutOfRange (F64.finite mant exp)) ∧
    (∀ (mant exp t : Int), exp < 0 → IsTruncation mant (-exp).toNat t →
      ¬ (-(2 ^ 63 : Int) ≤ t ∧ t < 2 ^ 63) →
      InterfaceToInt64 rt (Value.float64 (F64.finite mant exp)) =
        rt.int64OutOfRange (F64.finite mant exp)) ∧
    (∀ neg : Bool, InterfaceToInt64 rt (Value.float64 (F64.inf neg)) =
      rt.int64OutOfRange (F64.inf neg)) ∧
    InterfaceToInt64 rt (Value.float64 F64.nan) = rt.int64OutOfRange F64.nan ∧
    InterfaceToInt64 rt (Value.float64 (F64.finite 4911738343600947 (-47))) = 34 ∧
    InterfaceToInt64 rt (Value.float64 (F64.finite (-279) (-3))) = -34 ∧
    InterfaceToInt64 rt (Value.float64 (F64.finite 5 1)) = 10 := by
  have hs : ∀ s : String, InterfaceToInt64 rt (Value.str s) =
      if isInt64Literal s then literalValue s else 0 := by
    intro s
    have h : InterfaceToInt64 rt (Value.str s) =
        (match ParseInt s with
          | some valInt => valInt
          | none => 0) := rfl
    rw [h, ParseInt_eq]
    by_cases hl : isInt64Literal s
    · rw [if_pos hl, if_pos hl]
    · rw [if_neg hl, if_neg hl]
  have hpos : ∀ (mant exp : Int), 0 ≤ exp →
      -(2 ^ 63 : Int) ≤ mant * 2 ^ exp.toNat ∧ mant * 2 ^ exp.toNat < 2 ^ 63 →
      InterfaceToInt64 rt (Value.float64 (F64.finite mant exp)) = mant * 2 ^ exp.toNat := by
    intro mant exp he hr
    simp only [InterfaceToInt64, F64.toInt64, if_pos he, if_pos hr]
  have hneg : ∀ (mant exp t : Int), exp < 0 → IsTruncation mant (-exp).toNat t →
      -(2 ^ 63 : Int) ≤ t ∧ t < 2 ^ 63 →
      InterfaceToInt64 rt (Value.float64 (F64.finite mant exp)) = t := by
    intro mant exp t he ht hr
    have e := tdiv_of_IsTruncation mant (-exp).toNat t ht
    simp only [InterfaceToInt64, F64.toInt64, if_neg (not_le.mpr he), e, if_pos hr]
  refine ⟨fun _ => rfl, hs, fun _ => rfl, rfl, ?_, ?_, ?_, ?_, ?_, ?_, ?_,
    fun _ => rfl, fun _ => rfl, fun _ => rfl, hpos, hneg, ?_, ?_, fun _ => rfl, rfl,
    ?_, ?_, ?_⟩
  · rw [hs]; decide
  · rw [hs]; decide
  · rw [hs]; decide
  · rw [hs]; decide
  · rw [hs]; decide
  · rw [hs]; decide
  · rw [hs]; decide
  · intro mant exp he hr
    simp only [InterfaceToInt64, F64.toInt64, if_pos he, if_neg hr]
  · intro mant exp t he ht hr
    have e := tdiv_of_IsTruncation mant (-exp).toNat t ht
    simp only [InterfaceToInt64, F64.toInt64, if_neg (not_le.mpr he), e, if_neg hr]
  · exact hneg 4911738343600947 (-47) 34 (by decide) (by unfold IsTruncation; decide)
      (by decide)
  · exact hneg (-279) (-3) (-34) (by decide) (by unfold IsTruncation; decide) (by decide)
  · exact hpos 5 1 (by decide) (by decide)

/-- C17: witness of `InterfaceToInt64_reference`: 34.875, that is `279 * 2 ^ (-3)`, has the
truncation 34, which lies in the `int64` range, and `InterfaceToInt64` gives 34 for it. -/
theorem InterfaceToInt64_reference_witness :
    IsTruncation 279 3 34 ∧
    InterfaceToInt64 exampleRuntime (Value.float64 (F64.finite 279 (-3))) = 34 :=
  ⟨by unfold IsTruncation; decide,
   (InterfaceToInt64_reference exampleRuntime).2.2.2.2.2.2.2.2.2.2.2.2.2.2.2.1 279 (-3) 34
      (by decide) (by unfold IsTruncation; decide) (by decide)⟩

/-- C18: `InterfaceToBool` gives `b` for a boolean `b`, gives true for a string exactly when
the string is `true` (so `True`, `1` and the empty string give false), gives true for an
`int64` `n` exactly when `n > 0`, and gives false for every other value; `InterfaceToString`
gives `s` for a string `s` and the empty string for every other value. -/
theorem InterfaceToBool_InterfaceToString_reference :
    (∀ b : Bool, InterfaceToBool (Value.bool b) = b) ∧
    (∀ s : String, InterfaceToBool (Value.str s) = true ↔ s = "true") ∧
    InterfaceToBool (Value.str "True") = false ∧
    InterfaceToBool (Value.str "1") = false ∧
    InterfaceToBool (Value.str "") = false ∧
    (∀ n : Int, InterfaceToBool (Value.int64 n) = true ↔ n > 0) ∧
    (∀ v : Value, (∀ b, v ≠ Value.bool b) → (∀ s, v ≠ Value.str s) →
      (∀ n, v ≠ Value.int64 n) → InterfaceToBool v = false) ∧
    (∀ s : String, InterfaceToString (Value.str s) = s) ∧
    (∀ v : Value, (∀ s, v ≠ Value.str s) → InterfaceToString v = "") := by
  refine ⟨fun _ => rfl, ?_, by decide, by decide, by decide, ?_, ?_, fun _ => rfl, ?_⟩
  · intro s
    by_cases h : s = "true" <;> simp [InterfaceToBool, h]
  · intro n
    by_cases h : n > 0 <;> simp [InterfaceToBool, h]
  · intro v hb hs hn
    cases v with
    | bool b => exact absurd rfl (hb b)
    | str s => exact absurd rfl (hs s)
    | int64 n => exact absurd rfl (hn n)
    | _ => rfl
  · intro v hs
    cases v with
    | str s => exact absurd rfl (hs s)
    | _ => rfl

/-- C18: witness of `InterfaceToBool_InterfaceToString_reference` at the values nil and a
float, which are no boolean, no string and no `int64`. -/
theorem InterfaceToBool_InterfaceToString_reference_witness :
    InterfaceToBool Value.nil = false ∧
    InterfaceToBool (Value.float64 (F64.finite 3 0)) = false ∧
    InterfaceToString (Value.int64 5) = "" :=
  ⟨InterfaceToBool_InterfaceToString_reference.2.2.2.2.2.2.1 Value.nil
      (fun _ => by simp) (fun _ => by simp) (fun _ => by simp),
   InterfaceToBool_InterfaceToString_reference.2.2.2.2.2.2.1 (Value.float64 (F64.finite 3 0))
      (fun _ => by simp) (fun _ => by simp) (fun _ => by simp),
   InterfaceToBool_InterfaceToString_reference.2.2.2.2.2.2.2.2 (Value.int64 5)
      (fun _ => by simp)⟩

/-- C19: `Table(t)` sets only the table name; `Select(fs)` replaces the fields with `fs`;
`OrderBy(f, d)` sets only order, to `f` between backticks, a space and `d`, for any `d`;
`Skip(n)` and `Take(n)` set only offset and limit, to the base-10 rendering of `n` for every
integer `n`, negatives included: the rendering is an optional minus sign and decimal digits
whose value is `n`, and `Take(-1)` gives the limit `-1`.  In every case args, filters, joins
and the raw fragments are unchanged. -/
theorem accumulators_store_without_validation (s : Sql) (t f d : String) (fs : List String)
    (n : Int) :
    (s.Table t = { s with TableName := t } ∧ SameClauses (s.Table t) s) ∧
    (s.Select fs = { s with Fields := fs } ∧ SameClauses (s.Select fs) s) ∧
    (s.OrderBy f d = { s with Order := "`" ++ f ++ "` " ++ d } ∧
      SameClauses (s.OrderBy f d) s) ∧
    (s.Skip n = { s with Offset := Itoa n } ∧ SameClauses (s.Skip n) s) ∧
    (s.Take n = { s with Limit := Itoa n } ∧ SameClauses (s.Take n) s) ∧
    (literalValue (Itoa n) = n ∧ (∀ c ∈ literalBody (Itoa n), '0' ≤ c ∧ c ≤ '9') ∧
      literalBody (Itoa n) ≠ []) ∧
    ((SqlPoolNew textDB).Take (-1)).Limit = "-1" ∧
    ((SqlPoolNew textDB).Skip 20).Offset = "20" ∧
    ((SqlPoolNew textDB).OrderBy "id" "sideways").Order = "`id` sideways" := by
  refine ⟨⟨rfl, rfl, rfl, rfl, rfl, rfl⟩, ⟨rfl, rfl, rfl, rfl, rfl, rfl⟩,
    ⟨rfl, rfl, rfl, rfl, rfl, rfl⟩, ⟨rfl, rfl, rfl, rfl, rfl, rfl⟩,
    ⟨rfl, rfl, rfl, rfl, rfl, rfl⟩, literalValue_Itoa n, by decide, by decide, by decide⟩

/-- C20: `Lcfirst` of the empty string is empty, and for a string whose first byte is ASCII
it is the string with that byte lower-cased and the rest unchanged; but for `Éa`, whose first
character takes two bytes, it returns the bytes of `é`, then the second byte `0x89` of `É`,
then `a`, which is not `éa`; and applying it again gives yet another string, so it is not
idempotent there. -/
theorem Lcfirst_keeps_bytes_of_wide_first_character :
    (∀ rt : GoRuntime, Lcfirst rt [] = []) ∧
    (∀ (rt : GoRuntime) (b : Nat) (rest : List Nat), b < 0x80 →
      Lcfirst rt (b :: rest) = (if 0x41 ≤ b ∧ b ≤ 0x5A then b + 0x20 else b) :: rest) ∧
    Lcfirst exampleRuntime (goBytes "Name") = goBytes "name" ∧
    goBytes "Éa" = [0xC3, 0x89, 0x61] ∧
    goBytes "éa" = [0xC3, 0xA9, 0x61] ∧
    Lcfirst exampleRuntime (goBytes "Éa") = [0xC3, 0xA9, 0x89, 0x61] ∧
    Lcfirst exampleRuntime (goBytes "Éa") ≠ goBytes "éa" ∧
    Lcfirst exampleRuntime (Lcfirst exampleRuntime (goBytes "Éa")) =
      [0xC3, 0xA9, 0xA9, 0x89, 0x61] ∧
    Lcfirst exampleRuntime (Lcfirst exampleRuntime (goBytes "Éa")) ≠
      Lcfirst exampleRuntime (goBytes "Éa") := by
  refine ⟨fun _ => rfl, Lcfirst_ascii, by decide, by decide, by decide, by decide, by decide,
    by decide, by decide⟩

end Silk
